import Mathlib

/-!
Verification of the business-calendar elapsed-hours core of Task-Tracker
(`calculateElapsedHours` in `src/utils/timeUtils.ts`, re-exported through
`src/pages/EmployeesPage.tsx`, with calendar constants in `src/constants.ts`).

Embedding choices:
* Timestamps are natural numbers of milliseconds since a local-time epoch
  whose day 0 falls on a Thursday (weekday 4), matching the Unix epoch used
  by JavaScript `Date` with local time taken to coincide with UTC; the spec
  treats all timestamps "consistently as local wall-clock time", so days are
  uniform 86400000 ms.
* The JS `while` loop of the source becomes a well-founded recursion
  (`loop`), measured by the remaining milliseconds `e - cursor`.
* `(x).toFixed(2)` followed by `parseFloat` becomes exact rational rounding
  to two decimal places (`round2`), the idealisation the spec itself uses
  ("rounded to 2 decimal places").
-/

namespace TaskTracker

/-- `export const OFFICE_HOURS_START = 9` from `src/constants.ts`. -/
def OFFICE_HOURS_START : ℕ := 9

/-- `export const OFFICE_HOURS_END = 18` from `src/constants.ts`. -/
def OFFICE_HOURS_END : ℕ := 18

/-- `export const VALID_WORKING_DAYS = [6, 0, 1, 2, 3, 4]` from
`src/constants.ts` (Sat, Sun, Mon, Tue, Wed, Thu; Friday = 5 is off). -/
def VALID_WORKING_DAYS : List ℕ := [6, 0, 1, 2, 3, 4]

/-- Milliseconds in one hour, the source's `1000 * 60 * 60`. -/
def msPerHour : ℕ := 3600000

/-- Milliseconds in one calendar day. -/
def msPerDay : ℕ := 86400000

/-- Index of the calendar day containing timestamp `t`. -/
def dayIndex (t : ℕ) : ℕ := t / msPerDay

/-- `current.getDay()`: 0 = Sunday .. 6 = Saturday.  Day 0 of the epoch is a
Thursday (weekday 4), as for the JS epoch 1970-01-01. -/
def getDay (t : ℕ) : ℕ := (dayIndex t + 4) % 7

/-- `VALID_WORKING_DAYS.includes(dayOfWeek)`. -/
def isWorkingDay (d : ℕ) : Bool := VALID_WORKING_DAYS.contains d

/-- `const dayStart = new Date(current); dayStart.setHours(OFFICE_HOURS_START, 0, 0, 0)`:
same calendar day as `t`, time of day `09:00:00.000`. -/
def dayStart (t : ℕ) : ℕ := dayIndex t * msPerDay + OFFICE_HOURS_START * msPerHour

/-- `const dayEnd = new Date(current); dayEnd.setHours(OFFICE_HOURS_END, 0, 0, 0)`:
same calendar day as `t`, time of day `18:00:00.000`. -/
def dayEnd (t : ℕ) : ℕ := dayIndex t * msPerDay + OFFICE_HOURS_END * msPerHour

/-- `current.setDate(current.getDate() + 1); current.setHours(OFFICE_HOURS_START, 0, 0, 0)`:
the next calendar day at `09:00:00.000`. -/
def nextDay9 (t : ℕ) : ℕ := (dayIndex t + 1) * msPerDay + OFFICE_HOURS_START * msPerHour

/-- The iteration's contribution to `totalMilliseconds`: on a working day,
the length of the intersection of `[current, end]` with the office window,
when non-empty; otherwise nothing. -/
def dayContribution (e current : ℕ) : ℕ :=
  if isWorkingDay (getDay current) then
    let actualStart := max current (dayStart current)
    let actualEnd := min e (dayEnd current)
    if actualStart < actualEnd then actualEnd - actualStart else 0
  else 0

/-- The source's `while (current < end)` loop, accumulating
`totalMilliseconds`. -/
def loop (e current : ℕ) : ℕ :=
  if current < e then
    dayContribution e current + loop e (nextDay9 current)
  else 0
termination_by e - current
decreasing_by
  rename_i h
  simp only [nextDay9, dayIndex, msPerDay, msPerHour, OFFICE_HOURS_START]
  omega

/-- Instrumentation of the same `while` loop: the number of iterations it
performs (one per visited calendar day). -/
def loopCount (e current : ℕ) : ℕ :=
  if current < e then 1 + loopCount e (nextDay9 current) else 0
termination_by e - current
decreasing_by
  rename_i h
  simp only [nextDay9, dayIndex, msPerDay, msPerHour, OFFICE_HOURS_START]
  omega

/-- Exact rounding of a rational to 2 decimal places, modelling
`parseFloat(x.toFixed(2))` (round half away from zero; our accumulators are
non-negative, so round-half-up). -/
def round2 (q : ℚ) : ℚ := (round (q * 100) : ℤ) / 100

/-- `calculateElapsedHours` from `src/utils/timeUtils.ts`:
zero on `start >= end`, otherwise `Math.max(0, parseFloat((totalMilliseconds
/ (1000 * 60 * 60)).toFixed(2)))`. -/
def calculateElapsedHours (start e : ℕ) : ℚ :=
  if e ≤ start then 0
  else max 0 (round2 ((loop e start : ℚ) / (msPerHour : ℚ)))

/-! ### Basic facts about the loop -/

theorem lt_nextDay9 (t : ℕ) : t < nextDay9 t := by
  simp only [nextDay9, dayIndex, msPerDay, msPerHour, OFFICE_HOURS_START]
  omega

theorem loop_unfold (e current : ℕ) :
    loop e current =
      if current < e then dayContribution e current + loop e (nextDay9 current) else 0 := by
  rw [loop]

theorem loop_of_not_lt {e current : ℕ} (h : ¬ current < e) : loop e current = 0 := by
  rw [loop_unfold, if_neg h]

theorem loop_of_lt {e current : ℕ} (h : current < e) :
    loop e current = dayContribution e current + loop e (nextDay9 current) := by
  rw [loop_unfold, if_pos h]

theorem dayContribution_eval (e current : ℕ) :
    dayContribution e current =
      if isWorkingDay (getDay current) then
        (if max current (dayStart current) < min e (dayEnd current)
          then min e (dayEnd current) - max current (dayStart current) else 0)
      else 0 := rfl

/-- The cursor jump lands on the next calendar day. -/
theorem dayIndex_nextDay9 (t : ℕ) : dayIndex (nextDay9 t) = dayIndex t + 1 := by
  simp only [nextDay9, dayIndex, msPerDay, msPerHour, OFFICE_HOURS_START]
  omega

/-- A timestamp lies strictly before the end of the next calendar day. -/
theorem lt_succ_day_mul (t : ℕ) : t < (dayIndex t + 1) * msPerDay := by
  simp only [dayIndex, msPerDay]
  omega

/-- `dayEnd` lies on the same calendar day, before its end. -/
theorem dayEnd_lt_succ_day (t : ℕ) : dayEnd t < (dayIndex t + 1) * msPerDay := by
  simp only [dayEnd, dayIndex, msPerDay, msPerHour, OFFICE_HOURS_END]
  omega

/-- Timestamps on the same calendar day have the same day bounds. -/
theorem dayIndex_eq_imp_bounds {s t : ℕ} (h : dayIndex s = dayIndex t) :
    dayStart s = dayStart t ∧ dayEnd s = dayEnd t ∧ nextDay9 s = nextDay9 t := by
  refine ⟨?_, ?_, ?_⟩ <;> simp only [dayStart, dayEnd, nextDay9, h]

theorem round_rat_mono {q r : ℚ} (h : q ≤ r) : round q ≤ round r := by
  rw [round_eq, round_eq]
  exact Int.floor_le_floor (by linarith)

theorem round2_mono {q r : ℚ} (h : q ≤ r) : round2 q ≤ round2 r := by
  unfold round2
  have h1 : round (q * 100) ≤ round (r * 100) := round_rat_mono (by nlinarith)
  have h2 : ((round (q * 100) : ℤ) : ℚ) ≤ ((round (r * 100) : ℤ) : ℚ) := by
    exact_mod_cast h1
  linarith

theorem round2_nonneg {q : ℚ} (h : 0 ≤ q) : 0 ≤ round2 q := by
  have h0 : round2 0 = 0 := by
    unfold round2
    norm_num
  calc (0 : ℚ) = round2 0 := h0.symm
    _ ≤ round2 q := round2_mono h

/-- If the whole remaining span lies on the cursor's calendar day, the loop
contributes exactly that day's intersection and stops. -/
theorem loop_same_day {s e : ℕ} (h : dayIndex e = dayIndex s) :
    loop e s = dayContribution e s := by
  by_cases hlt : s < e
  · rw [loop_of_lt hlt]
    have hnext : ¬ nextDay9 s < e := by
      have h1 : e < (dayIndex e + 1) * msPerDay := lt_succ_day_mul e
      have h2 : (dayIndex s + 1) * msPerDay ≤ nextDay9 s := Nat.le_add_right _ _
      rw [h] at h1
      omega
    rw [loop_of_not_lt hnext, Nat.add_zero]
  · rw [loop_of_not_lt hlt]
    rw [dayContribution_eval]
    have hmin : min e (dayEnd s) ≤ e := min_le_left _ _
    have hmax : s ≤ max s (dayStart s) := le_max_left _ _
    have : ¬ max s (dayStart s) < min e (dayEnd s) := by omega
    simp [this]

theorem calc_of_pos {s e : ℕ} (h : s < e) :
    calculateElapsedHours s e = max 0 (round2 ((loop e s : ℚ) / (msPerHour : ℚ))) := by
  rw [calculateElapsedHours, if_neg (by omega)]

theorem max_zero_round2 {q : ℚ} (h : 0 ≤ q) : max 0 (round2 q) = round2 q :=
  max_eq_right (round2_nonneg h)

/-! ### Claims -/

/-- C1: if `start` and `end` fall on the same working calendar day and both
lie inside the office window `[officeStart, officeEnd)`, then
`calculateElapsedHours start end` equals `end - start` expressed in hours,
to 2-decimal rounding. -/
theorem same_day_full_containment (s e : ℕ)
    (hday : dayIndex s = dayIndex e)
    (hwork : isWorkingDay (getDay s) = true)
    (hs1 : dayStart s ≤ s) (hs2 : s < dayEnd s)
    (he1 : dayStart e ≤ e) (he2 : e < dayEnd e)
    (hle : s ≤ e) :
    calculateElapsedHours s e = round2 (((e - s : ℕ) : ℚ) / (msPerHour : ℚ)) := by
  obtain ⟨hbS, hbE, -⟩ := dayIndex_eq_imp_bounds hday.symm
  rcases Nat.lt_or_ge s e with hlt | hge
  · rw [calc_of_pos hlt, loop_same_day hday.symm, dayContribution_eval, if_pos hwork]
    have hmax : max s (dayStart s) = s := max_eq_left hs1
    have hmin : min e (dayEnd s) = e := min_eq_left (by rw [hbE] at he2; omega)
    rw [hmax, hmin, if_pos hlt]
    exact max_zero_round2 (by positivity)
  · have heq : s = e := le_antisymm hle hge
    subst heq
    rw [calculateElapsedHours, if_pos le_rfl]
    simp [round2]

/-- C1 witness: Monday 10:00 → Monday 14:00 (day 4 of the epoch week is a
Monday). -/
theorem same_day_full_containment_witness :
    calculateElapsedHours 381600000 396000000 =
      round2 (((396000000 - 381600000 : ℕ) : ℚ) / (msPerHour : ℚ)) :=
  same_day_full_containment 381600000 396000000 (by decide) (by decide)
    (by decide) (by decide) (by decide) (by decide) (by decide)

/-- C3: for `start >= end` the function returns exactly `0`; the case is a
defined zero-result, not a fault (in this embedding the function is total by
construction, so no error can arise). -/
theorem zero_on_nonpositive_span (s e : ℕ) (h : e ≤ s) :
    calculateElapsedHours s e = 0 := by
  rw [calculateElapsedHours, if_pos h]

/-- C3 witness: `start = 5 ms`, `end = 3 ms`. -/
theorem zero_on_nonpositive_span_witness : calculateElapsedHours 5 3 = 0 :=
  zero_on_nonpositive_span 5 3 (by decide)

/-- C7: the default calendar marks weekday `w < 7` as working iff `w ≠ 5`
(exactly Friday is excluded), `isWorkingDay` is literally set-membership in
the explicit list `VALID_WORKING_DAYS = [6, 0, 1, 2, 3, 4]`, and the office
window is 09:00–18:00 with start hour strictly below end hour. -/
theorem default_calendar_spec :
    (∀ w, w < 7 → (isWorkingDay w = true ↔ w ≠ 5)) ∧
    (∀ d, isWorkingDay d = VALID_WORKING_DAYS.contains d) ∧
    VALID_WORKING_DAYS = [6, 0, 1, 2, 3, 4] ∧
    OFFICE_HOURS_START = 9 ∧ OFFICE_HOURS_END = 18 ∧
    OFFICE_HOURS_START < OFFICE_HOURS_END := by
  refine ⟨by decide, fun d => rfl, rfl, rfl, rfl, by decide⟩

/-- C7 witness: Saturday (6) is working, and the instantiated facts hold at
concrete weekdays. -/
theorem default_calendar_spec_witness :
    (isWorkingDay 6 = true ↔ (6 : ℕ) ≠ 5) ∧ (isWorkingDay 5 = true ↔ (5 : ℕ) ≠ 5) :=
  ⟨default_calendar_spec.1 6 (by decide), default_calendar_spec.1 5 (by decide)⟩

/-- C4: (a) a `start` lying before the window opens on a working day, with
`end` the same day inside the window, is clipped: the result is
`end - officeStart` in hours (to 2-decimal rounding); (b) a `start` at or
after the window closes makes that day contribute zero milliseconds to the
accumulator, whatever `end` is. -/
theorem clipping_below_window :
    (∀ s e : ℕ, isWorkingDay (getDay s) = true → s < dayStart s →
      dayIndex s = dayIndex e → dayStart e ≤ e → e < dayEnd e →
      calculateElapsedHours s e =
        round2 (((e - dayStart s : ℕ) : ℚ) / (msPerHour : ℚ))) ∧
    (∀ s e : ℕ, isWorkingDay (getDay s) = true → dayEnd s ≤ s →
      dayContribution e s = 0) := by
  constructor
  · intro s e hwork hslt hday he1 he2
    obtain ⟨hbS, hbE, -⟩ := dayIndex_eq_imp_bounds hday.symm
    have hse : s < e := lt_of_lt_of_le hslt (by rw [← hbS]; exact he1)
    rw [calc_of_pos hse, loop_same_day hday.symm, dayContribution_eval, if_pos hwork]
    have hmax : max s (dayStart s) = dayStart s := max_eq_right (le_of_lt hslt)
    have hmin : min e (dayEnd s) = e := min_eq_left (by rw [hbE] at he2; omega)
    rw [hmax, hmin]
    rcases Nat.lt_or_ge (dayStart s) e with hlt | hge
    · rw [if_pos hlt]
      refine max_zero_round2 (div_nonneg ?_ ?_)
      · exact_mod_cast Nat.zero_le _
      · norm_num [msPerHour]
    · have heq : e = dayStart s := le_antisymm hge (by rw [← hbS]; exact he1)
      rw [if_neg (by omega), heq]
      simp [round2]
  · intro s e hwork hend
    rw [dayContribution_eval, if_pos hwork]
    have h1 : min e (dayEnd s) ≤ dayEnd s := min_le_right _ _
    have h2 : s ≤ max s (dayStart s) := le_max_left _ _
    rw [if_neg (by omega)]

/-- C4 witness: (a) Monday 08:00 → Monday 09:30 clips to 09:00–09:30;
(b) Monday 18:30 start contributes nothing on Monday against a Tuesday
12:00 end. -/
theorem clipping_below_window_witness :
    calculateElapsedHours 374400000 379800000 =
      round2 (((379800000 - dayStart 374400000 : ℕ) : ℚ) / (msPerHour : ℚ)) ∧
    dayContribution 475200000 412200000 = 0 :=
  ⟨clipping_below_window.1 374400000 379800000 (by decide) (by decide) (by decide)
      (by decide) (by decide),
    clipping_below_window.2 412200000 475200000 (by decide) (by decide)⟩

/-- C5: (a) a span fully contained in one non-working calendar day yields
`0`; (b) a non-working day at the cursor contributes nothing: the loop
proceeds over it unchanged, even when the span extends into or out of that
day. -/
theorem off_day_exclusion :
    (∀ s e : ℕ, dayIndex s = dayIndex e → isWorkingDay (getDay s) = false →
      calculateElapsedHours s e = 0) ∧
    (∀ s e : ℕ, s < e → isWorkingDay (getDay s) = false →
      loop e s = loop e (nextDay9 s)) := by
  have hcontrib : ∀ s e : ℕ, isWorkingDay (getDay s) = false → dayContribution e s = 0 := by
    intro s e hoff
    rw [dayContribution_eval, hoff]
    simp
  constructor
  · intro s e hday hoff
    rcases Nat.lt_or_ge s e with hlt | hge
    · rw [calc_of_pos hlt, loop_same_day hday.symm, hcontrib s e hoff]
      simp [round2]
    · rw [calculateElapsedHours, if_pos hge]
  · intro s e hlt hoff
    rw [loop_of_lt hlt, hcontrib s e hoff, Nat.zero_add]

/-- C5 witness: (a) Friday 09:00 → Friday 17:00 (day 1 of the epoch week is
a Friday) yields 0; (b) the loop skips Friday unchanged on a span running
from Friday 09:00 into Saturday 10:00. -/
theorem off_day_exclusion_witness :
    calculateElapsedHours 118800000 147600000 = 0 ∧
    loop 208800000 118800000 = loop 208800000 (nextDay9 118800000) :=
  ⟨off_day_exclusion.1 118800000 147600000 (by decide) (by decide),
    off_day_exclusion.2 118800000 208800000 (by decide) (by decide)⟩

theorem loopCount_unfold (e current : ℕ) :
    loopCount e current =
      if current < e then 1 + loopCount e (nextDay9 current) else 0 := by
  rw [loopCount]

theorem dayIndex_mono {s e : ℕ} (h : s ≤ e) : dayIndex s ≤ dayIndex e :=
  Nat.div_le_div_right h

/-- Each iteration visits one calendar day, so the iteration count is at
most the inclusive number of calendar days from `s` to `e`. -/
theorem loopCount_le (e s : ℕ) : loopCount e s ≤ dayIndex e + 1 - dayIndex s := by
  rw [loopCount_unfold]
  by_cases h : s < e
  · rw [if_pos h]
    have ih := loopCount_le e (nextDay9 s)
    have hd : dayIndex (nextDay9 s) = dayIndex s + 1 := dayIndex_nextDay9 s
    have hmono : dayIndex s ≤ dayIndex e := dayIndex_mono (le_of_lt h)
    omega
  · rw [if_neg h]
    omega
termination_by e - s
decreasing_by exact Nat.sub_lt_sub_left h (lt_nextDay9 s)

/-- C6: the cursor strictly advances to the next calendar day on every
iteration — independently of working-day status or intersection results,
since `nextDay9` depends only on the cursor — and consequently the loop's
iteration count is bounded by the number of calendar days spanned, so the
loop terminates on all inputs. -/
theorem loop_progress_and_termination :
    (∀ t : ℕ, t < nextDay9 t ∧ dayIndex (nextDay9 t) = dayIndex t + 1) ∧
    (∀ s e : ℕ, loopCount e s ≤ dayIndex e + 1 - dayIndex s) :=
  ⟨fun t => ⟨lt_nextDay9 t, dayIndex_nextDay9 t⟩, fun s e => loopCount_le e s⟩

theorem calc_nonneg (s e : ℕ) : 0 ≤ calculateElapsedHours s e := by
  rw [calculateElapsedHours]
  split
  · exact le_refl 0
  · exact le_max_left _ _

/-- C8: the returned value is non-negative and is exactly
`max(0, round₂(accumulatorMilliseconds / msPerHour))`, i.e. the accumulated
working-window duration in hours rounded to 2 decimal places. -/
theorem result_nonneg_and_rounded (s e : ℕ) :
    0 ≤ calculateElapsedHours s e ∧
    calculateElapsedHours s e =
      max 0 (round2 ((loop e s : ℚ) / (msPerHour : ℚ))) := by
  refine ⟨calc_nonneg s e, ?_⟩
  rw [calculateElapsedHours]
  by_cases h : e ≤ s
  · rw [if_pos h, loop_of_not_lt (by omega)]
    simp [round2]
  · rw [if_neg h]

/-- C9: with the default calendar, a span from Thursday 17:00 (epoch day 0,
`getDay = 4`) to the following Saturday 10:00 (epoch day 2, `getDay = 6`)
yields exactly 2 hours: one Thursday hour 17:00–18:00, nothing on Friday,
one Saturday hour 09:00–10:00. -/
theorem thu_to_sat_two_hours : calculateElapsedHours 61200000 208800000 = 2 := by
  have h1 : loop 208800000 61200000 = 7200000 := by
    rw [loop_of_lt (by decide), show nextDay9 61200000 = 118800000 from rfl,
        loop_of_lt (by decide), show nextDay9 118800000 = 205200000 from rfl,
        loop_of_lt (by decide), show nextDay9 205200000 = 291600000 from rfl,
        loop_of_not_lt (by decide),
        show dayContribution 208800000 61200000 = 3600000 from rfl,
        show dayContribution 208800000 118800000 = 0 from rfl,
        show dayContribution 208800000 205200000 = 3600000 from rfl]
  rw [calc_of_pos (by decide), h1]
  norm_num [round2, msPerHour]

/-- C2 counterexample: the returned (2-decimal-rounded) values are not
additive over the day-boundary partition.  Span: Monday 17:59:42 →
Tuesday 09:00:18.  Whole span accumulates 36 s = 0.01 h, but each part
(18 s = 0.005 h) rounds up to 0.01 h, so the parts sum to 0.02 ≠ 0.01. -/
theorem additivity_counterexample :
    calculateElapsedHours 410382000 464418000 ≠
      calculateElapsedHours 410382000 410400000 +
        calculateElapsedHours 464400000 464418000 := by
  have h1 : calculateElapsedHours 410382000 464418000 = 1 / 100 := by
    have hl : loop 464418000 410382000 = 36000 := by
      rw [loop_of_lt (by decide), show nextDay9 410382000 = 464400000 from rfl,
          loop_of_lt (by decide), show nextDay9 464400000 = 550800000 from rfl,
          loop_of_not_lt (by decide),
          show dayContribution 464418000 410382000 = 18000 from rfl,
          show dayContribution 464418000 464400000 = 18000 from rfl]
    rw [calc_of_pos (by decide), hl]
    norm_num [round2, msPerHour, round_eq]
  have h2 : calculateElapsedHours 410382000 410400000 = 1 / 100 := by
    have hl : loop 410400000 410382000 = 18000 := by
      rw [loop_of_lt (by decide), show nextDay9 410382000 = 464400000 from rfl,
          loop_of_not_lt (by decide),
          show dayContribution 410400000 410382000 = 18000 from rfl]
    rw [calc_of_pos (by decide), hl]
    norm_num [round2, msPerHour, round_eq]
  have h3 : calculateElapsedHours 464400000 464418000 = 1 / 100 := by
    have hl : loop 464418000 464400000 = 18000 := by
      rw [loop_of_lt (by decide), show nextDay9 464400000 = 550800000 from rfl,
          loop_of_not_lt (by decide),
          show dayContribution 464418000 464400000 = 18000 from rfl]
    rw [calc_of_pos (by decide), hl]
    norm_num [round2, msPerHour, round_eq]
  rw [h1, h2, h3]
  norm_num

theorem dayIndex_dayEnd (s : ℕ) : dayIndex (dayEnd s) = dayIndex s := by
  simp only [dayEnd, dayIndex, msPerDay, msPerHour, OFFICE_HOURS_END]
  omega

/-- C2 amended: the pre-rounding millisecond accumulator is additive over
the partition at day boundaries: for a span ending on a later calendar day
than it starts, the accumulated milliseconds equal those of
`[start, officeEnd of start's day]` plus those of
`[next day's officeStart, end]` (whence, recursively, the full per-day
partition).  The returned values round each part to 2 decimals first, so
they need not sum to the whole-span result. -/
theorem loop_day_split (s e : ℕ) (h : dayIndex s < dayIndex e) :
    loop e s = loop (dayEnd s) s + loop e (nextDay9 s) := by
  have hdays : (dayIndex s + 1) * msPerDay ≤ e := by
    calc (dayIndex s + 1) * msPerDay ≤ dayIndex e * msPerDay :=
          Nat.mul_le_mul_right _ h
      _ ≤ e := Nat.div_mul_le_self e msPerDay
  have hse : s < e := lt_of_lt_of_le (lt_succ_day_mul s) hdays
  have hEnd_lt_e : dayEnd s < e := lt_of_lt_of_le (dayEnd_lt_succ_day s) hdays
  rw [loop_of_lt hse, loop_same_day (dayIndex_dayEnd s),
      dayContribution_eval, dayContribution_eval,
      min_eq_right (le_of_lt hEnd_lt_e), min_self]

/-- C2 amended witness: the day-boundary split at the counterexample's
span. -/
theorem loop_day_split_witness :
    loop 464418000 410382000 =
      loop (dayEnd 410382000) 410382000 + loop 464418000 (nextDay9 410382000) :=
  loop_day_split 410382000 464418000 (by decide)

theorem dayContribution_mono (s : ℕ) {e1 e2 : ℕ} (h : e1 ≤ e2) :
    dayContribution e1 s ≤ dayContribution e2 s := by
  rw [dayContribution_eval, dayContribution_eval]
  by_cases hw : isWorkingDay (getDay s) = true
  · rw [if_pos hw, if_pos hw]
    have h1 : min e1 (dayEnd s) ≤ min e2 (dayEnd s) := min_le_min h le_rfl
    by_cases hc : max s (dayStart s) < min e1 (dayEnd s)
    · rw [if_pos hc, if_pos (lt_of_lt_of_le hc h1)]
      omega
    · rw [if_neg hc]
      split
      · exact Nat.zero_le _
      · exact le_refl 0
  · rw [if_neg hw, if_neg hw]

theorem loop_mono_right {e1 e2 : ℕ} (s : ℕ) (h : e1 ≤ e2) :
    loop e1 s ≤ loop e2 s := by
  by_cases h1 : s < e1
  · rw [loop_of_lt h1, loop_of_lt (lt_of_lt_of_le h1 h)]
    have ih := loop_mono_right (nextDay9 s) h
    have hc := dayContribution_mono s h
    omega
  · rw [loop_of_not_lt h1]
    exact Nat.zero_le _
termination_by e2 - s
decreasing_by exact Nat.sub_lt_sub_left (lt_of_lt_of_le h1 h) (lt_nextDay9 s)

/-- C10: for a fixed start, the result is monotone non-decreasing in the
end timestamp. -/
theorem monotone_in_end (s e1 e2 : ℕ) (h : e1 ≤ e2) :
    calculateElapsedHours s e1 ≤ calculateElapsedHours s e2 := by
  by_cases h1 : e1 ≤ s
  · rw [zero_on_nonpositive_span s e1 h1]
    exact calc_nonneg s e2
  · push_neg at h1
    rw [calc_of_pos h1, calc_of_pos (lt_of_lt_of_le h1 h)]
    refine max_le_max le_rfl (round2_mono ?_)
    have hml : (loop e1 s : ℚ) ≤ (loop e2 s : ℚ) := by
      exact_mod_cast loop_mono_right s h
    have hpos : (0 : ℚ) < (msPerHour : ℚ) := by norm_num [msPerHour]
    exact (div_le_div_iff_of_pos_right hpos).mpr hml

/-- C10 witness: the Thursday 17:00 start against two ordered ends. -/
theorem monotone_in_end_witness :
    calculateElapsedHours 61200000 147600000 ≤ calculateElapsedHours 61200000 208800000 :=
  monotone_in_end 61200000 147600000 208800000 (by decide)

end TaskTracker
